import Mathlib

/-!
# Verification of the FRPadelLeague ranking/challenge core

Shallow embedding of the ranked-ladder core of the repository:
the score validator (`isValidSetScore`, `validateSetScores`, `handleSubmitScore`),
the eligibility check (`canChallenge`), the challenge state machine
(`createChallenge`, `submitScore`, `validateScore`) and the ranking update
applied when a validated result moves the challenger up the ladder.

Database rows become Lean structures, the asynchronous store becomes a pure
`LeagueState`, and each operation becomes a pure state transformer.  The
per-row database updates of the ranking algorithm are modelled step by step
(including the temporary position 99999 the code uses), and a fallible
variant records which steps succeed, since the code only logs step errors
and continues.

A JavaScript number that may be `NaN` (the result of `parseInt` on an empty
input field) is modelled as `Option Int`, with `none` for `NaN`; any
comparison involving `none` is false, as it is for `NaN`.
-/

namespace FRPadel

/-! ## Data model (src/types, database schema) -/

inductive League
  | mens
  | womens
  deriving DecidableEq, Repr

structure Team where
  id : String
  name : String
  creatorId : String
  memberIds : List String
  league : League
  position : Int
  previousPosition : Int
  deriving DecidableEq, Repr

inductive ChallengeStatus
  | pending
  | accepted
  | declined
  | completed
  deriving DecidableEq, Repr

structure Score where
  challengerSets : List (Option Int)
  challengedSets : List (Option Int)
  deriving DecidableEq, Repr

structure Challenge where
  id : String
  challengerTeamId : String
  challengedTeamId : String
  status : ChallengeStatus
  score : Option Score
  scoreSubmittedBy : Option String
  scoreValidated : Bool
  winnerId : Option String
  deriving DecidableEq, Repr

structure LeagueSettings where
  challengeRestrictionDate : Int
  maxPositionDifference : Int
  deriving DecidableEq, Repr

/-- The part of the store the verified operations read and write:
the `teams` and `challenges` tables (join requests and users are outside
the claims considered here). -/
structure LeagueState where
  teams : List Team
  challenges : List Challenge
  deriving DecidableEq, Repr

/-! ## Score validator (`part_004`) -/

/-- `isValidSetScore` (part_004, lines 13-24): the winner of a set must reach
6 games with the loser on 0-4, or 7 games with the loser on 5 or 6. -/
def isValidSetScore (winnerGames loserGames : Int) : Bool :=
  if winnerGames = 6 then decide (0 ≤ loserGames ∧ loserGames ≤ 4)
  else if winnerGames = 7 then decide (loserGames = 5 ∨ loserGames = 6)
  else false

inductive SetError
  | bothRequired
  | negative
  | invalidWinningScore
  | tie
  deriving DecidableEq, Repr

/-- `validateSetScores` (part_004, lines 26-57).  Both entries absent is
allowed (unplayed optional third set), exactly one absent is an error. -/
def validateSetScores (challengerScore challengedScore : Option Int) :
    Except SetError Unit :=
  match challengerScore, challengedScore with
  | none, none => Except.ok ()
  | none, some _ => Except.error SetError.bothRequired
  | some _, none => Except.error SetError.bothRequired
  | some c, some d =>
    if c < 0 ∨ d < 0 then Except.error SetError.negative
    else if c > d then
      if isValidSetScore c d then Except.ok ()
      else Except.error SetError.invalidWinningScore
    else if d > c then
      if isValidSetScore d c then Except.ok ()
      else Except.error SetError.invalidWinningScore
    else Except.error SetError.tie

/-- JavaScript `>` on numbers that may be `NaN`: any comparison involving
`NaN` is false. -/
def jsGt : Option Int → Option Int → Bool
  | some a, some b => decide (a > b)
  | _, _ => false

/-- JavaScript `<` on numbers that may be `NaN`. -/
def jsLt : Option Int → Option Int → Bool
  | some a, some b => decide (a < b)
  | _, _ => false

inductive SubmitError
  | invalidSet1 (e : SetError)
  | invalidSet2 (e : SetError)
  | invalidSet3 (e : SetError)
  | invalidMatchResult
  | noThirdSetNeeded
  | matchIncomplete
  deriving DecidableEq, Repr

/-- `handleSubmitScore` (part_004, lines 142-227), the match-level validation
performed before any store write.  Returns the set arrays passed on to
`submitScore` on success, mirroring the code's control flow and check order.
The code's inner guard `if ((challengerSetsWon === 2 || challengedSetsWon === 2)
&& hasThirdSet) { if (firstTwoSetsWinner === 2 || firstTwoSetsLosses === 2)
return error }` falls through when the inner test fails, which is the flat
conjunction used here. -/
def handleSubmitScore (set1c set1d set2c set2d set3c set3d : Option Int) :
    Except SubmitError (List (Option Int) × List (Option Int)) :=
  match validateSetScores set1c set1d with
  | Except.error e => Except.error (SubmitError.invalidSet1 e)
  | Except.ok _ =>
  match validateSetScores set2c set2d with
  | Except.error e => Except.error (SubmitError.invalidSet2 e)
  | Except.ok _ =>
  match validateSetScores set3c set3d with
  | Except.error e => Except.error (SubmitError.invalidSet3 e)
  | Except.ok _ =>
    let hasThirdSet := set3c.isSome && set3d.isSome
    let challengerSetsWon :=
      (if jsGt set1c set1d then 1 else 0) + (if jsGt set2c set2d then 1 else 0)
        + (if hasThirdSet then (if jsGt set3c set3d then 1 else 0) else 0)
    let challengedSetsWon :=
      (if jsGt set1c set1d then 0 else 1) + (if jsGt set2c set2d then 0 else 1)
        + (if hasThirdSet then (if jsGt set3c set3d then 0 else 1) else 0)
    if challengerSetsWon = challengedSetsWon then
      Except.error SubmitError.invalidMatchResult
    else if (challengerSetsWon = 2 ∨ challengedSetsWon = 2) ∧ hasThirdSet = true
        ∧ ((if jsGt set1c set1d then 1 else 0) + (if jsGt set2c set2d then 1 else 0) = 2
           ∨ (if jsLt set1c set1d then 1 else 0) + (if jsLt set2c set2d then 1 else 0) = 2) then
      Except.error SubmitError.noThirdSetNeeded
    else if challengerSetsWon = 1 ∧ challengedSetsWon = 1 ∧ hasThirdSet = false then
      Except.error SubmitError.matchIncomplete
    else
      Except.ok
        ([set1c, set2c] ++ (if hasThirdSet then [set3c] else []),
         [set1d, set2d] ++ (if hasThirdSet then [set3d] else []))

/-! ## Eligibility engine (`part_010`, `canChallenge`, lines 390-404) -/

/-- `canChallenge`.  `settings` is the context's settings record (possibly
still unloaded) and `now` the current time, both explicit here; dates are
epoch milliseconds. -/
def canChallenge (settings : Option LeagueSettings) (now : Int)
    (challengerTeam challengedTeam : Team) : Bool :=
  if challengerTeam.league ≠ challengedTeam.league then false
  else if challengerTeam.id = challengedTeam.id then false
  else
    match settings with
    | none => false
    | some s =>
      if s.challengeRestrictionDate ≤ now then
        let positionDiff := challengerTeam.position - challengedTeam.position
        decide (0 < positionDiff) && decide (positionDiff ≤ s.maxPositionDifference)
      else
        decide (challengedTeam.position < challengerTeam.position)

/-! ## Team creation (`part_010`, `createTeam`, lines 261-302) -/

/-- `createTeam`: the new team enters at position `#teams-in-league + 1`,
with `previous_position` equal to it; no other row is written.  `newId`
stands for the id the database generates. -/
def createTeam (st : LeagueState) (newId name creatorId : String)
    (league : League) : LeagueState × Team :=
  let leagueTeams := st.teams.filter fun t => decide (t.league = league)
  let nextPosition : Int := leagueTeams.length + 1
  let newTeam : Team :=
    { id := newId, name := name, creatorId := creatorId,
      memberIds := [creatorId], league := league,
      position := nextPosition, previousPosition := nextPosition }
  ({ st with teams := st.teams ++ [newTeam] }, newTeam)

/-! ## Challenge state machine (`part_010`) -/

inductive LeagueError
  | duplicateActiveChallenge
  deriving DecidableEq, Repr

/-- The duplicate-challenge guard's predicate (part_010, lines 410-414):
an active challenge between the two teams, in either direction. -/
def isActiveChallengeBetween (teamA teamB : String) (c : Challenge) : Bool :=
  ((decide (c.challengerTeamId = teamA) && decide (c.challengedTeamId = teamB))
    || (decide (c.challengerTeamId = teamB) && decide (c.challengedTeamId = teamA)))
  && (decide (c.status = ChallengeStatus.pending)
      || decide (c.status = ChallengeStatus.accepted)
      || (decide (c.status = ChallengeStatus.completed) && !c.scoreValidated))

/-- `createChallenge` (part_010, lines 406-447): fails when an active
challenge already exists between the pair, otherwise inserts a new record
directly in `accepted` state (auto-accept).  `newId` stands for the id the
database generates; `score_validated` defaults to false in the schema. -/
def createChallenge (st : LeagueState) (newId challengerTeamId challengedTeamId : String) :
    Except LeagueError LeagueState :=
  match st.challenges.find? (isActiveChallengeBetween challengerTeamId challengedTeamId) with
  | some _ => Except.error LeagueError.duplicateActiveChallenge
  | none =>
    Except.ok { st with challenges := st.challenges ++
      [{ id := newId, challengerTeamId := challengerTeamId,
         challengedTeamId := challengedTeamId,
         status := ChallengeStatus.accepted, score := none,
         scoreSubmittedBy := none, scoreValidated := false, winnerId := none }] }

/-- `submitScore` (part_010, lines 456-479): a single row update writing the
set arrays, the submitting team and status `completed`.  The code performs no
check on the challenge's current status and does not write `score_validated`. -/
def submitScore (st : LeagueState) (challengeId : String)
    (challengerSets challengedSets : List (Option Int))
    (submittedByTeamId : String) : LeagueState :=
  { st with challenges := st.challenges.map fun c =>
      if c.id = challengeId then
        { c with
          score := some { challengerSets := challengerSets, challengedSets := challengedSets },
          scoreSubmittedBy := some submittedByTeamId,
          status := ChallengeStatus.completed }
      else c }

/-- The UI score-submission flow: part_004 `handleSubmitScore` validates and
only calls part_010 `submitScore` when validation passes. -/
def handleSubmitScoreAction (st : LeagueState) (challengeId : String)
    (set1c set1d set2c set2d set3c set3d : Option Int)
    (submittedByTeamId : String) : LeagueState × Option SubmitError :=
  match handleSubmitScore set1c set1d set2c set2d set3c set3d with
  | Except.error e => (st, some e)
  | Except.ok sets => (submitScore st challengeId sets.1 sets.2 submittedByTeamId, none)

/-! ## Score validation and the ranking engine (`part_010`, `validateScore`,
lines 481-597) -/

/-- Number of indices at which the first side's games exceed the second
side's: `sets.filter((s, i) => s > other[i]).length` in the code. -/
def countSetWins (a b : List (Option Int)) : Nat :=
  (a.zip b).countP fun p => jsGt p.1 p.2

/-- The winner computation of `validateScore` (part_010, lines 500-507). -/
def computeWinnerId (c : Challenge) (sc : Score) : String :=
  if countSetWins sc.challengedSets sc.challengerSets
      < countSetWins sc.challengerSets sc.challengedSets
  then c.challengerTeamId else c.challengedTeamId

/-- The range test of ranking step 2 (part_010, lines 555-561): same league,
position in `[loserPosition, winnerOldPosition)`. -/
def shiftRangeCond (lg : League) (loserPosition winnerOldPosition : Int) (t : Team) : Bool :=
  decide (t.league = lg) && decide (loserPosition ≤ t.position)
    && decide (t.position < winnerOldPosition)

/-- Ranking step 1 (part_010, lines 547-551): move the winner to the
temporary position 99999 to free its slot. -/
def rankingStep1 (winnerTeamId : String) (teams : List Team) : List Team :=
  teams.map fun t => if t.id = winnerTeamId then { t with position := 99999 } else t

/-- Ranking step 2 (part_010, lines 553-575): every same-league team with
position in `[loserPosition, winnerOldPosition)` moves down one rank, its
`previous_position` recorded first. -/
def rankingStep2 (lg : League) (loserPosition winnerOldPosition : Int)
    (teams : List Team) : List Team :=
  teams.map fun t =>
    if shiftRangeCond lg loserPosition winnerOldPosition t then
      { t with previousPosition := t.position, position := t.position + 1 }
    else t

/-- Ranking step 3 (part_010, lines 577-585): the winner takes the loser's
original position, its `previous_position` set to its old one. -/
def rankingStep3 (winnerTeamId : String) (loserPosition winnerOldPosition : Int)
    (teams : List Team) : List Team :=
  teams.map fun t =>
    if t.id = winnerTeamId then
      { t with previousPosition := winnerOldPosition, position := loserPosition }
    else t

/-- `validateScore` (part_010, lines 481-597), with one boolean per ranking
database step telling whether that update succeeds: the code only logs a step
error and continues, so a failed step simply leaves its rows unwritten.
`validateScore` below is the all-steps-succeed instance. -/
def validateScoreCore (ok1 ok2 ok3 : Bool) (st : LeagueState)
    (challengeId : String) (valid : Bool) : LeagueState :=
  match st.challenges.find? fun c => decide (c.id = challengeId) with
  | none => st
  | some challenge =>
    match challenge.score with
    | none => st
    | some score =>
      if !valid then
        -- dispute: reset the score, the submitter and the status
        { st with challenges := st.challenges.map fun c =>
            if c.id = challengeId then
              { c with score := none, status := ChallengeStatus.accepted,
                       scoreSubmittedBy := none }
            else c }
      else
        let winnerId := computeWinnerId challenge score
        let st1 : LeagueState :=
          { st with challenges := st.challenges.map fun c =>
              if c.id = challengeId then
                { c with scoreValidated := true, winnerId := some winnerId }
              else c }
        if winnerId = challenge.challengerTeamId then
          match st1.teams.find? (fun t => decide (t.id = challenge.challengerTeamId)),
                st1.teams.find? (fun t => decide (t.id = challenge.challengedTeamId)) with
          | some challengerTeam, some challengedTeam =>
            if challengedTeam.position < challengerTeam.position then
              let loserPosition := challengedTeam.position
              let winnerOldPosition := challengerTeam.position
              let t1 := if ok1 then rankingStep1 challenge.challengerTeamId st1.teams
                        else st1.teams
              let t2 := if ok2 then rankingStep2 challengerTeam.league loserPosition
                                      winnerOldPosition t1
                        else t1
              let t3 := if ok3 then rankingStep3 challenge.challengerTeamId loserPosition
                                      winnerOldPosition t2
                        else t2
              { st1 with teams := t3 }
            else st1
          | _, _ => st1
        else st1

/-- `validateScore` with every database step succeeding. -/
def validateScore (st : LeagueState) (challengeId : String) (valid : Bool) : LeagueState :=
  validateScoreCore true true true st challengeId valid

/-! ## Reference definitions taken from the spec's words -/

/-- Per-team effect of the reference ranking function of the spec
(section 4.4): the winner takes the loser's position with `previousPosition`
its old one, a same-league team in `[loserPosition, winnerOldPosition)`
moves down one rank with `previousPosition` its pre-shift value, any other
team is untouched. -/
def rankingMapFn (lg : League) (winnerTeamId : String)
    (loserPosition winnerOldPosition : Int) (t : Team) : Team :=
  if t.id = winnerTeamId then
    { t with position := loserPosition, previousPosition := winnerOldPosition }
  else if shiftRangeCond lg loserPosition winnerOldPosition t then
    { t with position := t.position + 1, previousPosition := t.position }
  else t

/-- Reference ranking function, following the spec (section 4.4) and claim
C1: `rankingMapFn` applied to every team row. -/
def specRankingUpdate (lg : League) (winnerTeamId : String)
    (loserPosition winnerOldPosition : Int) (teams : List Team) : List Team :=
  teams.map (rankingMapFn lg winnerTeamId loserPosition winnerOldPosition)

/-- The permutation of positions the ranking shift performs on the winner's
league: the winner's old position falls to the loser's, the shifted range
moves up one value, everything else is fixed. -/
def shiftPerm (loserPosition winnerOldPosition p : Int) : Int :=
  if p = winnerOldPosition then loserPosition
  else if loserPosition ≤ p ∧ p < winnerOldPosition then p + 1
  else p

/-- Positions of the teams of league `lg`, in store order. -/
def leaguePositions (teams : List Team) (lg : League) : List Int :=
  (teams.filter fun t => decide (t.league = lg)).map fun t => t.position

/-- The spec's ladder invariant (section 3): within a league the positions
are exactly `1..N` for `N` teams - no duplicates, no gaps. -/
def DensePerm (teams : List Team) (lg : League) : Prop :=
  (leaguePositions teams lg).Nodup ∧
    ∀ p : Int, p ∈ leaguePositions teams lg ↔
      1 ≤ p ∧ p ≤ (leaguePositions teams lg).length

/-! ## Concrete states used to evaluate the theorems -/

def teamA : Team :=
  { id := "a", name := "A", creatorId := "ua", memberIds := ["ua"],
    league := League.mens, position := 1, previousPosition := 1 }

def teamB : Team :=
  { id := "b", name := "B", creatorId := "ub", memberIds := ["ub"],
    league := League.mens, position := 2, previousPosition := 2 }

def teamC : Team :=
  { id := "c", name := "C", creatorId := "uc", memberIds := ["uc"],
    league := League.mens, position := 3, previousPosition := 3 }

/-- A completed, not yet validated challenge of team `c` (position 3)
against team `a` (position 1), score 6-4 6-3 for the challenger. -/
def challengeSubmitted : Challenge :=
  { id := "m", challengerTeamId := "c", challengedTeamId := "a",
    status := ChallengeStatus.completed,
    score := some { challengerSets := [some 6, some 6],
                    challengedSets := [some 4, some 3] },
    scoreSubmittedBy := some "c", scoreValidated := false, winnerId := none }

def stateSubmitted : LeagueState :=
  { teams := [teamA, teamB, teamC], challenges := [challengeSubmitted] }

/-- A declined (hence inactive) challenge between the same teams. -/
def challengeDeclined : Challenge :=
  { id := "m", challengerTeamId := "c", challengedTeamId := "a",
    status := ChallengeStatus.declined, score := none,
    scoreSubmittedBy := none, scoreValidated := false, winnerId := none }

def stateDeclined : LeagueState :=
  { teams := [teamA, teamB, teamC], challenges := [challengeDeclined] }

/-- An accepted (active) challenge between teams `a` and `b`. -/
def challengeAccepted01 : Challenge :=
  { id := "k", challengerTeamId := "a", challengedTeamId := "b",
    status := ChallengeStatus.accepted, score := none,
    scoreSubmittedBy := none, scoreValidated := false, winnerId := none }

def stateWithAccepted : LeagueState :=
  { teams := [teamA, teamB], challenges := [challengeAccepted01] }

def stateNoChallenges : LeagueState :=
  { teams := [teamA, teamB], challenges := [] }

def sampleSettings : LeagueSettings :=
  { challengeRestrictionDate := 100, maxPositionDifference := 4 }

/-! ## Theorems -/

/-- C4: a set entered as two integers is accepted by the set validator
exactly when the larger value `w` and smaller value `l` satisfy
`w = 6 ∧ 0 ≤ l ≤ 4` or `w = 7 ∧ l ∈ {5, 6}`; ties are rejected for every
value, and negative values are rejected. -/
theorem validateSetScores_ok_iff (c d : Int) :
    (validateSetScores (some c) (some d) = Except.ok () ↔
      (max c d = 6 ∧ 0 ≤ min c d ∧ min c d ≤ 4)
        ∨ (max c d = 7 ∧ (min c d = 5 ∨ min c d = 6)))
    ∧ (c = d → validateSetScores (some c) (some d) ≠ Except.ok ())
    ∧ (c < 0 ∨ d < 0 → validateSetScores (some c) (some d) ≠ Except.ok ()) := by
  have hiff : ∀ w l : Int, isValidSetScore w l = true ↔
      ((w = 6 ∧ 0 ≤ l ∧ l ≤ 4) ∨ (w = 7 ∧ (l = 5 ∨ l = 6))) := by
    intro w l
    unfold isValidSetScore
    split_ifs <;> simp_all
  refine ⟨?_, ?_, ?_⟩ <;>
    · simp only [validateSetScores]
      split_ifs <;> simp_all [hiff] <;> omega

/-- Witness for C4 at concrete inputs: 6-4 is accepted, 5-5 and 6-(-1)
are rejected. -/
theorem validateSetScores_ok_iff_witness :
    validateSetScores (some 6) (some 4) = Except.ok ()
    ∧ validateSetScores (some 5) (some 5) ≠ Except.ok ()
    ∧ validateSetScores (some 6) (some (-1)) ≠ Except.ok () :=
  ⟨(validateSetScores_ok_iff 6 4).1.mpr (by decide),
   (validateSetScores_ok_iff 5 5).2.1 rfl,
   (validateSetScores_ok_iff 6 (-1)).2.2 (by decide)⟩

/-- C3: `canChallenge` returns true exactly when the teams share a league,
are distinct, settings are loaded, and either the current time is before the
restriction cutover with the challenger ranked strictly below (numerically
above) the challenged team, or the cutover has passed and the position
difference is in `(0, maxPositionDifference]`. -/
theorem canChallenge_iff_spec (settings : Option LeagueSettings) (now : Int)
    (a b : Team) :
    canChallenge settings now a b = true ↔
      a.league = b.league ∧ a.id ≠ b.id ∧
        ∃ s, settings = some s ∧
          ((now < s.challengeRestrictionDate ∧ b.position < a.position) ∨
           (s.challengeRestrictionDate ≤ now ∧ 0 < a.position - b.position ∧
             a.position - b.position ≤ s.maxPositionDifference)) := by
  unfold canChallenge
  cases settings with
  | none => split_ifs <;> simp_all
  | some s =>
    dsimp only
    split_ifs with h1 h2 h3
    · simp_all
    · simp_all
    · simp only [Bool.and_eq_true, decide_eq_true_eq, Option.some.injEq]
      constructor
      · intro h
        exact ⟨not_ne_iff.mp h1, h2, s, rfl, Or.inr ⟨h3, h.1, h.2⟩⟩
      · rintro ⟨-, -, s', rfl, hd⟩
        rcases hd with ⟨hlt, -⟩ | ⟨-, hd1, hd2⟩
        · omega
        · exact ⟨hd1, hd2⟩
    · simp only [decide_eq_true_eq, Option.some.injEq]
      constructor
      · intro h
        exact ⟨not_ne_iff.mp h1, h2, s, rfl, Or.inl ⟨by omega, h⟩⟩
      · rintro ⟨-, -, s', rfl, hd⟩
        rcases hd with ⟨-, hlt⟩ | ⟨hge, -⟩
        · exact hlt
        · omega

/-- Witness for C3: with the cutover passed and `maxPositionDifference = 4`,
a team at position 3 may challenge the team at position 1. -/
theorem canChallenge_iff_spec_witness :
    canChallenge (some sampleSettings) 200 teamC teamA = true :=
  (canChallenge_iff_spec (some sampleSettings) 200 teamC teamA).mpr
    (by refine ⟨rfl, by decide, sampleSettings, rfl, Or.inr ?_⟩; decide)

/-- C10: a newly created team enters at the bottom of its league's ladder -
`position` and `previousPosition` are both one more than the number of teams
already in the league - and every existing row is untouched. -/
theorem createTeam_enters_at_bottom (st : LeagueState) (newId name creatorId : String)
    (league : League) :
    (createTeam st newId name creatorId league).2.position
        = ((st.teams.filter fun t => decide (t.league = league)).length : Int) + 1
    ∧ (createTeam st newId name creatorId league).2.previousPosition
        = ((st.teams.filter fun t => decide (t.league = league)).length : Int) + 1
    ∧ (createTeam st newId name creatorId league).1.teams
        = st.teams ++ [(createTeam st newId name creatorId league).2]
    ∧ (createTeam st newId name creatorId league).1.challenges = st.challenges :=
  ⟨rfl, rfl, rfl, rfl⟩

/-- The code's duplicate-challenge predicate agrees with the spec's notion of
an active challenge between the pair, in either direction. -/
theorem isActiveChallengeBetween_iff (a b : String) (c : Challenge) :
    isActiveChallengeBetween a b c = true ↔
      ((c.challengerTeamId = a ∧ c.challengedTeamId = b) ∨
       (c.challengerTeamId = b ∧ c.challengedTeamId = a)) ∧
      (c.status = ChallengeStatus.pending ∨ c.status = ChallengeStatus.accepted ∨
       (c.status = ChallengeStatus.completed ∧ c.scoreValidated = false)) := by
  unfold isActiveChallengeBetween
  simp only [Bool.and_eq_true, Bool.or_eq_true, decide_eq_true_eq, Bool.not_eq_true']
  tauto

/-- C6: `createChallenge` fails with the duplicate-active-challenge error
exactly when an active challenge (pending, accepted, or completed but not
validated) already exists between the pair in either direction, touching
nothing; otherwise it appends a new record whose status is directly
`accepted`. -/
theorem createChallenge_duplicate_guard (st : LeagueState) (newId a b : String) :
    ((∃ c ∈ st.challenges,
        ((c.challengerTeamId = a ∧ c.challengedTeamId = b) ∨
         (c.challengerTeamId = b ∧ c.challengedTeamId = a)) ∧
        (c.status = ChallengeStatus.pending ∨ c.status = ChallengeStatus.accepted ∨
         (c.status = ChallengeStatus.completed ∧ c.scoreValidated = false))) →
      createChallenge st newId a b = Except.error LeagueError.duplicateActiveChallenge)
    ∧ ((¬ ∃ c ∈ st.challenges,
        ((c.challengerTeamId = a ∧ c.challengedTeamId = b) ∨
         (c.challengerTeamId = b ∧ c.challengedTeamId = a)) ∧
        (c.status = ChallengeStatus.pending ∨ c.status = ChallengeStatus.accepted ∨
         (c.status = ChallengeStatus.completed ∧ c.scoreValidated = false))) →
      createChallenge st newId a b = Except.ok { st with challenges := st.challenges ++
        [{ id := newId, challengerTeamId := a, challengedTeamId := b,
           status := ChallengeStatus.accepted, score := none,
           scoreSubmittedBy := none, scoreValidated := false, winnerId := none }] }) := by
  constructor
  · intro hex
    have hsome : (st.challenges.find? (isActiveChallengeBetween a b)).isSome := by
      rw [List.find?_isSome]
      obtain ⟨c, hc, hprop⟩ := hex
      exact ⟨c, hc, (isActiveChallengeBetween_iff a b c).mpr hprop⟩
    unfold createChallenge
    obtain ⟨c, hc⟩ := Option.isSome_iff_exists.mp hsome
    rw [hc]
  · intro hnone
    have h : st.challenges.find? (isActiveChallengeBetween a b) = none := by
      rw [List.find?_eq_none]
      intro c hc hact
      exact hnone ⟨c, hc, (isActiveChallengeBetween_iff a b c).mp hact⟩
    unfold createChallenge
    rw [h]

/-- Witness for C6: with an accepted challenge between `a` and `b` a second
creation fails; with no challenge present it succeeds in `accepted` state. -/
theorem createChallenge_duplicate_guard_witness :
    createChallenge stateWithAccepted "n" "a" "b"
        = Except.error LeagueError.duplicateActiveChallenge
    ∧ createChallenge stateNoChallenges "n" "a" "b"
        = Except.ok { stateNoChallenges with
            challenges := stateNoChallenges.challenges ++
              [{ id := "n", challengerTeamId := "a", challengedTeamId := "b",
                 status := ChallengeStatus.accepted, score := none,
                 scoreSubmittedBy := none, scoreValidated := false, winnerId := none }] } :=
  ⟨(createChallenge_duplicate_guard stateWithAccepted "n" "a" "b").1 (by decide),
   (createChallenge_duplicate_guard stateNoChallenges "n" "a" "b").2 (by decide)⟩

/-- C5 (code bug): with sets 6-4, 6-3 already giving one side both of sets
1-2, a supplied third set won by the same side is ACCEPTED by the code
(final tally 3-0, so the `=== 2` guard never fires), although the match was
already decided 2-0; the comment above the guard states the intent to reject
every such third set, and the guard does reject the 2-1 tally.  Also, the
1-1-without-third-set case is rejected by the earlier equal-set-wins check,
so the dedicated incomplete-match error is unreachable. -/
theorem handleSubmitScore_three_zero_sweep_accepted :
    handleSubmitScore (some 6) (some 4) (some 6) (some 3) (some 7) (some 5)
        = Except.ok ([some 6, some 6, some 7], [some 4, some 3, some 5])
    ∧ handleSubmitScore (some 6) (some 4) (some 6) (some 3) (some 5) (some 7)
        = Except.error SubmitError.noThirdSetNeeded
    ∧ handleSubmitScore (some 6) (some 4) (some 3) (some 6) none none
        = Except.error SubmitError.invalidMatchResult := by
  refine ⟨rfl, rfl, rfl⟩

/-- Counterexample to C7 as stated: `submitScore` performs no activity check.
Submitting a valid score against a `declined` (inactive) challenge mutates it
to `completed` instead of failing. -/
theorem submitScore_mutates_declined_challenge :
    (submitScore stateDeclined "m" [some 6, some 6] [some 4, some 3] "c").challenges.map
        Challenge.status = [ChallengeStatus.completed]
    ∧ stateDeclined.challenges.map Challenge.status = [ChallengeStatus.declined]
    ∧ submitScore stateDeclined "m" [some 6, some 6] [some 4, some 3] "c" ≠ stateDeclined := by
  refine ⟨rfl, rfl, by decide⟩

/-- C7 as amended: the UI flow validates the score first and performs no
store write on a validation error; on success `submitScore` sets the matched
challenge to `completed` with the score and submitting team recorded,
touching no team and leaving every challenge's `scoreValidated` flag
unchanged (it does not check the challenge's status). -/
theorem submitScore_effect_and_validation_guard (st : LeagueState)
    (challengeId : String) (s1c s1d s2c s2d s3c s3d : Option Int) (tid : String) :
    (∀ e, handleSubmitScore s1c s1d s2c s2d s3c s3d = Except.error e →
        handleSubmitScoreAction st challengeId s1c s1d s2c s2d s3c s3d tid = (st, some e))
    ∧ (∀ sets, handleSubmitScore s1c s1d s2c s2d s3c s3d = Except.ok sets →
        handleSubmitScoreAction st challengeId s1c s1d s2c s2d s3c s3d tid
          = (submitScore st challengeId sets.1 sets.2 tid, none))
    ∧ (∀ cs ds : List (Option Int),
        (submitScore st challengeId cs ds tid).teams = st.teams
        ∧ (submitScore st challengeId cs ds tid).challenges
            = (st.challenges.map fun c =>
                if c.id = challengeId then
                  { c with score := some { challengerSets := cs, challengedSets := ds },
                           scoreSubmittedBy := some tid,
                           status := ChallengeStatus.completed }
                else c)
        ∧ (submitScore st challengeId cs ds tid).challenges.map Challenge.scoreValidated
            = st.challenges.map Challenge.scoreValidated) := by
  refine ⟨?_, ?_, ?_⟩
  · intro e h
    unfold handleSubmitScoreAction
    rw [h]
  · intro sets h
    unfold handleSubmitScoreAction
    rw [h]
  · intro cs ds
    refine ⟨rfl, rfl, ?_⟩
    unfold submitScore
    simp only [List.map_map]
    refine List.map_congr_left fun c _ => ?_
    by_cases h : c.id = challengeId <;> simp [h, Function.comp]

/-- Witness for C7's amended theorem: an invalid first set blocks the write,
a valid 6-4 6-3 score is written to the matched challenge. -/
theorem submitScore_effect_and_validation_guard_witness :
    handleSubmitScoreAction stateWithAccepted "k" (some 5) (some 5) (some 6)
        (some 0) none none "a"
      = (stateWithAccepted, some (SubmitError.invalidSet1 SetError.tie))
    ∧ handleSubmitScoreAction stateWithAccepted "k" (some 6) (some 4) (some 6)
        (some 3) none none "a"
      = (submitScore stateWithAccepted "k" [some 6, some 6] [some 4, some 3] "a", none) :=
  ⟨(submitScore_effect_and_validation_guard stateWithAccepted "k" (some 5) (some 5)
      (some 6) (some 0) none none "a").1 (SubmitError.invalidSet1 SetError.tie) rfl,
   (submitScore_effect_and_validation_guard stateWithAccepted "k" (some 6) (some 4)
      (some 6) (some 3) none none "a").2.1 ([some 6, some 6], [some 4, some 3]) rfl⟩

/-- The three database steps of the ranking update compose to the spec's
reference ranking function, provided the winner's starting position does not
reach the temporary slot 99999. -/
theorem ranking_steps_eq_spec (winnerTeamId : String) (lg : League)
    (loserPosition winnerOldPosition : Int) (teams : List Team)
    (hbound : winnerOldPosition ≤ 99999) :
    rankingStep3 winnerTeamId loserPosition winnerOldPosition
        (rankingStep2 lg loserPosition winnerOldPosition
          (rankingStep1 winnerTeamId teams))
      = specRankingUpdate lg winnerTeamId loserPosition winnerOldPosition teams := by
  unfold rankingStep1 rankingStep2 rankingStep3 specRankingUpdate rankingMapFn
  simp only [List.map_map]
  refine List.map_congr_left fun t _ => ?_
  by_cases hid : t.id = winnerTeamId
  · subst hid
    have h99 : ¬((99999 : Int) < winnerOldPosition) := by omega
    simp [Function.comp, shiftRangeCond, h99]
  · by_cases hc : shiftRangeCond lg loserPosition winnerOldPosition t = true
    · simp [Function.comp, hid, hc]
    · simp [Function.comp, hid, hc]

/-- Case analysis of the team rows written by an accepting `validateScore`:
the spec's reference ranking function when the challenger wins from strictly
below, the identity otherwise. -/
theorem validateScore_true_teams_cases (st : LeagueState)
    (challengeId : String) (ch : Challenge) (sc : Score) (tw tl : Team)
    (hch : st.challenges.find? (fun c => decide (c.id = challengeId)) = some ch)
    (hsc : ch.score = some sc)
    (hw : st.teams.find? (fun t => decide (t.id = ch.challengerTeamId)) = some tw)
    (hl : st.teams.find? (fun t => decide (t.id = ch.challengedTeamId)) = some tl)
    (hbound : tw.position ≤ 99999) :
    (computeWinnerId ch sc = ch.challengerTeamId ∧ tl.position < tw.position →
      (validateScore st challengeId true).teams
        = specRankingUpdate tw.league ch.challengerTeamId tl.position tw.position st.teams)
    ∧ (computeWinnerId ch sc ≠ ch.challengerTeamId ∨ ¬ tl.position < tw.position →
      (validateScore st challengeId true).teams = st.teams) := by
  unfold validateScore validateScoreCore
  rw [hch]
  dsimp only
  rw [hsc]
  dsimp only
  rw [hw, hl]
  constructor
  · rintro ⟨hwin, hpos⟩
    rw [if_pos hwin]
    dsimp only
    rw [if_pos hpos]
    exact ranking_steps_eq_spec ch.challengerTeamId tw.league tl.position tw.position
      st.teams hbound
  · rintro (hne | hnlt)
    · rw [if_neg hne]
      simp
    · by_cases hwin : computeWinnerId ch sc = ch.challengerTeamId
      · rw [if_pos hwin]
        dsimp only
        rw [if_neg hnlt]
        simp
      · rw [if_neg hwin]
        simp

/-- C1: validating a submitted score with accept = true changes team rows
exactly as the spec's reference ranking function does: when the computed
winner is the challenger and it sat strictly below the challenged team,
every same-league team with old position in `[loserPos, winnerOldPos)` moves
down one with `previousPosition` recorded, the challenger takes `loserPos`
with `previousPosition = winnerOldPos`, and every other team is untouched;
when the challenged team wins or the challenger was already equal-or-better
ranked, no team row changes at all. -/
theorem validateScore_accept_matches_spec_ranking (st : LeagueState)
    (challengeId : String) (ch : Challenge) (sc : Score) (tw tl : Team)
    (hch : st.challenges.find? (fun c => decide (c.id = challengeId)) = some ch)
    (hsc : ch.score = some sc)
    (hw : st.teams.find? (fun t => decide (t.id = ch.challengerTeamId)) = some tw)
    (hl : st.teams.find? (fun t => decide (t.id = ch.challengedTeamId)) = some tl)
    (hbound : tw.position ≤ 99999) :
    (computeWinnerId ch sc = ch.challengerTeamId ∧ tl.position < tw.position →
      (validateScore st challengeId true).teams
        = specRankingUpdate tw.league ch.challengerTeamId tl.position tw.position st.teams)
    ∧ (computeWinnerId ch sc ≠ ch.challengerTeamId ∨ ¬ tl.position < tw.position →
      (validateScore st challengeId true).teams = st.teams) :=
  validateScore_true_teams_cases st challengeId ch sc tw tl hch hsc hw hl hbound

/-- Witness for C1: in a three-team league 1-2-3, the position-3 team beats
the position-1 team 6-4 6-3; validation applies exactly the reference
ranking function. -/
theorem validateScore_accept_matches_spec_ranking_witness :
    (validateScore stateSubmitted "m" true).teams
      = specRankingUpdate League.mens "c" 1 3 stateSubmitted.teams :=
  (validateScore_accept_matches_spec_ranking stateSubmitted "m" challengeSubmitted
      { challengerSets := [some 6, some 6], challengedSets := [some 4, some 3] }
      teamC teamA rfl rfl rfl rfl (by decide)).1 ⟨rfl, by decide⟩

/-- C8 fails on the code: the ranking update is not all-or-nothing.  With
steps 1 and 2 succeeding and step 3 failing (its error is only logged), the
winner is left at the temporary position 99999 and the shifted teams keep
their shifted positions. -/
theorem validateScore_failed_step_leaves_temp_position :
    ((validateScoreCore true true false stateSubmitted "m" true).teams.map Team.position
        = [2, 3, 99999])
    ∧ (validateScoreCore true true false stateSubmitted "m" true).teams
        ≠ stateSubmitted.teams := by
  exact ⟨rfl, by decide⟩

/-- Submitting the same score again after a dispute restores exactly the
state the first submission produced. -/
theorem submit_dispute_submit (st : LeagueState) (challengeId : String)
    (cs ds : List (Option Int)) (tid : String) :
    submitScore (validateScore (submitScore st challengeId cs ds tid) challengeId false)
        challengeId cs ds tid
      = submitScore st challengeId cs ds tid := by
  have hpcomp : ((fun c => decide (c.id = challengeId)) ∘
      fun c => if c.id = challengeId then
        ({ c with
            score := some { challengerSets := cs, challengedSets := ds },
            scoreSubmittedBy := some tid,
            status := ChallengeStatus.completed } : Challenge)
      else c) = fun c : Challenge => decide (c.id = challengeId) := by
    funext c
    by_cases h : c.id = challengeId <;> simp [Function.comp, h]
  cases h : st.challenges.find? fun c => decide (c.id = challengeId) with
  | none =>
    have hfind : (submitScore st challengeId cs ds tid).challenges.find?
        (fun c => decide (c.id = challengeId)) = none := by
      show List.find? _ (st.challenges.map _) = none
      rw [List.find?_map, hpcomp, h]
      rfl
    unfold validateScore validateScoreCore
    rw [hfind]
    unfold submitScore
    dsimp only
    simp only [List.map_map]
    refine congrArg (LeagueState.mk st.teams) ?_
    refine List.map_congr_left fun c _ => ?_
    by_cases hc : c.id = challengeId <;> simp [Function.comp, hc]
  | some ch0 =>
    have hch0 : ch0.id = challengeId := by simpa using List.find?_some h
    have hfind : (submitScore st challengeId cs ds tid).challenges.find?
        (fun c => decide (c.id = challengeId))
      = some { ch0 with
          score := some { challengerSets := cs, challengedSets := ds },
          scoreSubmittedBy := some tid,
          status := ChallengeStatus.completed } := by
      show List.find? _ (st.challenges.map _) = _
      rw [List.find?_map, hpcomp, h]
      simp [hch0]
    unfold validateScore validateScoreCore
    rw [hfind]
    dsimp only
    rw [if_pos (show (!false) = true from rfl)]
    unfold submitScore
    dsimp only
    simp only [List.map_map]
    refine congrArg (LeagueState.mk st.teams) ?_
    refine List.map_congr_left fun c _ => ?_
    by_cases hc : c.id = challengeId <;> simp [Function.comp, hc]

/-- C9: disputing a submitted, not yet validated score clears both set
arrays and the submitting-team marker, reverts the status to `accepted` and
leaves the validated flag false, touching no team; and the sequence
submit - dispute - resubmit the same score - validate produces exactly the
same final state (challenges and ranking) as validating the original
submission directly. -/
theorem validateScore_dispute_and_roundtrip (st : LeagueState)
    (challengeId : String) (ch : Challenge) (sc : Score)
    (hch : st.challenges.find? (fun c => decide (c.id = challengeId)) = some ch)
    (hsc : ch.score = some sc)
    (hval : ch.scoreValidated = false)
    (hids : (st.challenges.map Challenge.id).Nodup) :
    ((validateScore st challengeId false).teams = st.teams
      ∧ (validateScore st challengeId false).challenges
          = (st.challenges.map fun c =>
              if c.id = challengeId then
                { c with score := none, status := ChallengeStatus.accepted,
                         scoreSubmittedBy := none }
              else c)
      ∧ ∀ c, c ∈ (validateScore st challengeId false).challenges → c.id = challengeId →
          c.status = ChallengeStatus.accepted ∧ c.score = none
            ∧ c.scoreSubmittedBy = none ∧ c.scoreValidated = false)
    ∧ (∀ cs ds tid,
        validateScore (submitScore (validateScore (submitScore st challengeId cs ds tid)
            challengeId false) challengeId cs ds tid) challengeId true
          = validateScore (submitScore st challengeId cs ds tid) challengeId true) := by
  have hres : validateScore st challengeId false
      = { st with challenges := st.challenges.map fun c =>
            if c.id = challengeId then
              { c with score := none, status := ChallengeStatus.accepted,
                       scoreSubmittedBy := none }
            else c } := by
    unfold validateScore validateScoreCore
    rw [hch]
    dsimp only
    rw [hsc]
    constructor
  have hchmem : ch ∈ st.challenges := List.mem_of_find?_eq_some hch
  have hchid : ch.id = challengeId := by simpa using List.find?_some hch
  constructor
  · refine ⟨by rw [hres], by rw [hres], ?_⟩
    intro c hcmem hcid
    rw [hres] at hcmem
    dsimp only at hcmem
    obtain ⟨c0, hc0mem, hc0eq⟩ := List.mem_map.mp hcmem
    by_cases h0 : c0.id = challengeId
    · have hc0ch : c0 = ch :=
        List.inj_on_of_nodup_map hids hc0mem hchmem (h0.trans hchid.symm)
      rw [← hc0eq]
      simp [h0, hc0ch, hchid, hval]
    · rw [← hc0eq] at hcid
      simp [h0] at hcid
  · intro cs ds tid
    rw [submit_dispute_submit]

/-- Witness for C9: disputing the 6-4 6-3 submission touches no team, and
the dispute-resubmit-validate round trip equals direct validation. -/
theorem validateScore_dispute_and_roundtrip_witness :
    (validateScore stateSubmitted "m" false).teams = stateSubmitted.teams
    ∧ validateScore (submitScore (validateScore (submitScore stateSubmitted "m"
          [some 6, some 6] [some 4, some 3] "c") "m" false) "m"
          [some 6, some 6] [some 4, some 3] "c") "m" true
        = validateScore (submitScore stateSubmitted "m"
            [some 6, some 6] [some 4, some 3] "c") "m" true :=
  ⟨(validateScore_dispute_and_roundtrip stateSubmitted "m" challengeSubmitted
      { challengerSets := [some 6, some 6], challengedSets := [some 4, some 3] }
      rfl rfl rfl (by decide)).1.1,
   (validateScore_dispute_and_roundtrip stateSubmitted "m" challengeSubmitted
      { challengerSets := [some 6, some 6], challengedSets := [some 4, some 3] }
      rfl rfl rfl (by decide)).2 [some 6, some 6] [some 4, some 3] "c"⟩

/-- `shiftPerm` is injective once the shifted range is non-empty. -/
theorem shiftPerm_injective (loserPos winnerOldPos : Int)
    (hlt : loserPos < winnerOldPos) :
    Function.Injective (shiftPerm loserPos winnerOldPos) := by
  intro a b hab
  unfold shiftPerm at hab
  split_ifs at hab <;> omega

/-- Applying `shiftPerm` to a dense list of positions keeps it dense. -/
theorem shiftPerm_dense (l : List Int) (loserPos winnerOldPos : Int)
    (hnd : l.Nodup) (hmem : ∀ p, p ∈ l ↔ 1 ≤ p ∧ p ≤ l.length)
    (h1 : 1 ≤ loserPos) (hlt : loserPos < winnerOldPos)
    (hN : winnerOldPos ≤ l.length) :
    (l.map (shiftPerm loserPos winnerOldPos)).Nodup ∧
      ∀ p, p ∈ l.map (shiftPerm loserPos winnerOldPos) ↔
        1 ≤ p ∧ p ≤ (l.map (shiftPerm loserPos winnerOldPos)).length := by
  constructor
  · exact hnd.map (shiftPerm_injective loserPos winnerOldPos hlt)
  · intro p
    rw [List.length_map]
    constructor
    · intro hp
      obtain ⟨q, hq, hqe⟩ := List.mem_map.mp hp
      have hqb := (hmem q).mp hq
      rw [← hqe]
      unfold shiftPerm
      split_ifs <;> omega
    · intro hp
      by_cases h1p : p = loserPos
      · refine List.mem_map.mpr ⟨winnerOldPos, (hmem _).mpr (by omega), ?_⟩
        unfold shiftPerm
        split_ifs <;> omega
      · by_cases h2p : loserPos < p ∧ p ≤ winnerOldPos
        · refine List.mem_map.mpr ⟨p - 1, (hmem _).mpr (by omega), ?_⟩
          unfold shiftPerm
          split_ifs <;> omega
        · refine List.mem_map.mpr ⟨p, (hmem _).mpr (by omega), ?_⟩
          unfold shiftPerm
          split_ifs <;> omega

/-- League positions after a league-preserving rewrite of every team row. -/
theorem leaguePositions_map (g : Team → Team)
    (hglg : ∀ t, (g t).league = t.league) (teams : List Team) (lg : League) :
    leaguePositions (teams.map g) lg
      = (teams.filter fun t => decide (t.league = lg)).map fun t => (g t).position := by
  unfold leaguePositions
  rw [List.filter_map]
  have hpg : ((fun t : Team => decide (t.league = lg)) ∘ g)
      = fun t : Team => decide (t.league = lg) := by
    funext t
    simp [Function.comp, hglg t]
  rw [hpg, List.map_map]
  rfl

/-- `rankingMapFn` never changes a team's league. -/
theorem rankingMapFn_league (lgW : League) (winnerId : String)
    (loserPos winnerOldPos : Int) (t : Team) :
    (rankingMapFn lgW winnerId loserPos winnerOldPos t).league = t.league := by
  unfold rankingMapFn
  split_ifs <;> rfl

/-- On the winner's own league, `rankingMapFn` acts on positions exactly as
`shiftPerm`. -/
theorem rankingMapFn_positions_winner_league (teams : List Team) (lg : League)
    (winnerId : String) (loserPos winnerOldPos : Int) (tw : Team)
    (htw : tw ∈ teams) (htwid : tw.id = winnerId) (htwlg : tw.league = lg)
    (htwpos : tw.position = winnerOldPos)
    (hids : (teams.map Team.id).Nodup)
    (hdense : DensePerm teams lg) :
    ((teams.filter fun t => decide (t.league = lg)).map fun t =>
        (rankingMapFn lg winnerId loserPos winnerOldPos t).position)
      = (leaguePositions teams lg).map (shiftPerm loserPos winnerOldPos) := by
  unfold leaguePositions
  rw [List.map_map]
  refine List.map_congr_left fun t ht => ?_
  have htmem := (List.mem_filter.mp ht).1
  have htlgd : t.league = lg := by
    have := (List.mem_filter.mp ht).2
    simpa using this
  by_cases hid : t.id = winnerId
  · have htweq : t = tw :=
      List.inj_on_of_nodup_map hids htmem htw (hid.trans htwid.symm)
    have hpos : t.position = winnerOldPos := by rw [htweq]; exact htwpos
    simp only [Function.comp]
    unfold rankingMapFn shiftPerm
    rw [if_pos hid, if_pos hpos]
  · have hnw : t.position ≠ winnerOldPos := by
      intro heq
      have htwfil : tw ∈ teams.filter fun s => decide (s.league = lg) :=
        List.mem_filter.mpr ⟨htw, by simp [htwlg]⟩
      have hteq : t = tw :=
        List.inj_on_of_nodup_map hdense.1 ht htwfil (by rw [heq, htwpos])
      exact hid (by rw [hteq, htwid])
    simp only [Function.comp]
    unfold rankingMapFn shiftPerm shiftRangeCond
    rw [if_neg hid, if_neg hnw]
    by_cases hin : loserPos ≤ t.position ∧ t.position < winnerOldPos
    · have hc : (decide (t.league = lg) && decide (loserPos ≤ t.position)
          && decide (t.position < winnerOldPos)) = true := by
        simp [htlgd, hin.1, hin.2]
      rw [hc, if_pos rfl, if_pos hin]
    · have hc : (decide (t.league = lg) && decide (loserPos ≤ t.position)
          && decide (t.position < winnerOldPos)) = false := by
        rcases Decidable.not_and_iff_or_not.mp hin with h | h <;> simp [h]
      rw [hc, if_neg hin]
      simp

/-- On any other league, `rankingMapFn` leaves every position unchanged. -/
theorem rankingMapFn_positions_other_league (teams : List Team) (lg lgW : League)
    (winnerId : String) (loserPos winnerOldPos : Int) (tw : Team)
    (htw : tw ∈ teams) (htwid : tw.id = winnerId) (htwlg : tw.league = lgW)
    (hne : lg ≠ lgW)
    (hids : (teams.map Team.id).Nodup) :
    ((teams.filter fun t => decide (t.league = lg)).map fun t =>
        (rankingMapFn lgW winnerId loserPos winnerOldPos t).position)
      = leaguePositions teams lg := by
  unfold leaguePositions
  refine List.map_congr_left fun t ht => ?_
  have htmem := (List.mem_filter.mp ht).1
  have htlgd : t.league = lg := by
    have := (List.mem_filter.mp ht).2
    simpa using this
  have hid : t.id ≠ winnerId := by
    intro hid
    have htweq : t = tw :=
      List.inj_on_of_nodup_map hids htmem htw (hid.trans htwid.symm)
    rw [htweq, htwlg] at htlgd
    exact hne htlgd.symm
  have hcond : shiftRangeCond lgW loserPos winnerOldPos t = false := by
    unfold shiftRangeCond
    have hlgne : ¬ t.league = lgW := by
      rw [htlgd]
      exact fun h => hne h
    simp [hlgne]
  unfold rankingMapFn
  rw [if_neg hid, hcond, if_neg (by simp)]

/-- The reference ranking update keeps every league's positions a dense
permutation of `1..N`: the winner's league is re-numbered by `shiftPerm`,
every other league is untouched. -/
theorem specRankingUpdate_preserves_dense (teams : List Team) (lg lgW : League)
    (winnerId : String) (loserPos winnerOldPos : Int) (tw tl : Team)
    (htw : tw ∈ teams) (htwid : tw.id = winnerId) (htwlg : tw.league = lgW)
    (htwpos : tw.position = winnerOldPos)
    (htl : tl ∈ teams) (htllg : tl.league = lgW) (htlpos : tl.position = loserPos)
    (hlt : loserPos < winnerOldPos)
    (hids : (teams.map Team.id).Nodup)
    (hdense : DensePerm teams lg) :
    DensePerm (specRankingUpdate lgW winnerId loserPos winnerOldPos teams) lg := by
  have hglg := rankingMapFn_league lgW winnerId loserPos winnerOldPos
  by_cases hcase : lg = lgW
  · subst hcase
    have hmemtl : tl.position ∈ leaguePositions teams lg := by
      unfold leaguePositions
      exact List.mem_map.mpr ⟨tl, List.mem_filter.mpr ⟨htl, by simp [htllg]⟩, rfl⟩
    have hmemtw : tw.position ∈ leaguePositions teams lg := by
      unfold leaguePositions
      exact List.mem_map.mpr ⟨tw, List.mem_filter.mpr ⟨htw, by simp [htwlg]⟩, rfl⟩
    have hb1 := (hdense.2 tl.position).mp hmemtl
    have hb2 := (hdense.2 tw.position).mp hmemtw
    have hshift := shiftPerm_dense (leaguePositions teams lg) loserPos winnerOldPos
      hdense.1 hdense.2 (by omega) hlt (by omega)
    constructor
    · rw [specRankingUpdate, leaguePositions_map _ hglg,
        rankingMapFn_positions_winner_league teams lg winnerId loserPos winnerOldPos
          tw htw htwid htwlg htwpos hids hdense]
      exact hshift.1
    · intro p
      rw [specRankingUpdate, leaguePositions_map _ hglg,
        rankingMapFn_positions_winner_league teams lg winnerId loserPos winnerOldPos
          tw htw htwid htwlg htwpos hids hdense]
      exact hshift.2 p
  · constructor
    · rw [specRankingUpdate, leaguePositions_map _ hglg,
        rankingMapFn_positions_other_league teams lg lgW winnerId loserPos winnerOldPos
          tw htw htwid htwlg hcase hids]
      exact hdense.1
    · intro p
      rw [specRankingUpdate, leaguePositions_map _ hglg,
        rankingMapFn_positions_other_league teams lg lgW winnerId loserPos winnerOldPos
          tw htw htwid htwlg hcase hids]
      exact hdense.2 p

/-- Appending a team at position `N + 1` of its league keeps the league
dense. -/
theorem densePerm_append_bottom (teams : List Team) (lg : League) (nt : Team)
    (hlg : nt.league = lg)
    (hpos : nt.position = ((teams.filter fun t => decide (t.league = lg)).length : Int) + 1)
    (hdense : DensePerm teams lg) :
    DensePerm (teams ++ [nt]) lg := by
  have hkey : leaguePositions (teams ++ [nt]) lg
      = leaguePositions teams lg ++ [nt.position] := by
    unfold leaguePositions
    rw [List.filter_append, List.map_append]
    congr 1
    rw [List.filter_singleton]
    simp [hlg]
  have hlen : ((leaguePositions teams lg).length : Int) + 1 = nt.position := by
    unfold leaguePositions
    rw [List.length_map]
    omega
  constructor
  · rw [hkey, List.nodup_append]
    refine ⟨hdense.1, List.nodup_singleton _, ?_⟩
    rw [List.disjoint_singleton]
    intro hmem
    have := (hdense.2 nt.position).mp hmem
    omega
  · intro p
    rw [hkey, List.length_append]
    rw [List.mem_append, List.mem_singleton]
    have h2 := hdense.2 p
    constructor
    · rintro (hp | rfl)
      · have := h2.mp hp
        simp only [List.length_singleton]
        push_cast
        omega
      · simp only [List.length_singleton]
        push_cast
        omega
    · intro hp
      simp only [List.length_singleton] at hp
      push_cast at hp
      by_cases hple : p ≤ ((leaguePositions teams lg).length : Int)
      · exact Or.inl (h2.mpr ⟨hp.1, hple⟩)
      · right
        omega

/-- Appending a team of a different league leaves a league's positions
untouched. -/
theorem densePerm_append_other (teams : List Team) (lg : League) (nt : Team)
    (hlg : nt.league ≠ lg) (hdense : DensePerm teams lg) :
    DensePerm (teams ++ [nt]) lg := by
  have hkey : leaguePositions (teams ++ [nt]) lg = leaguePositions teams lg := by
    unfold leaguePositions
    rw [List.filter_append]
    have hnil : List.filter (fun t => decide (t.league = lg)) [nt] = [] := by
      rw [List.filter_singleton]
      simp [hlg]
    rw [hnil, List.append_nil]
  constructor
  · rw [hkey]
    exact hdense.1
  · intro p
    rw [hkey]
    exact hdense.2 p

/-- `createTeam` keeps every league's positions dense. -/
theorem createTeam_preserves_dense (st : LeagueState) (newId name creatorId : String)
    (tlg lg : League) (hdense : DensePerm st.teams lg) :
    DensePerm (createTeam st newId name creatorId tlg).1.teams lg := by
  unfold createTeam
  dsimp only
  by_cases hcase : tlg = lg
  · subst hcase
    exact densePerm_append_bottom st.teams tlg _ rfl rfl hdense
  · exact densePerm_append_other st.teams lg _ hcase hdense

/-- C2: the two operations that write team positions keep the positions of
every league partition a dense permutation of `1..N`: `createTeam` appends
at the bottom, and an accepting `validateScore` applies the reference
ranking permutation (or nothing), so density before implies density after
in each case. -/
theorem positions_remain_dense (st : LeagueState) (lg : League) :
    (∀ newId name creatorId tlg, DensePerm st.teams lg →
        DensePerm (createTeam st newId name creatorId tlg).1.teams lg)
    ∧ (∀ challengeId ch sc tw tl,
        st.challenges.find? (fun c => decide (c.id = challengeId)) = some ch →
        ch.score = some sc →
        st.teams.find? (fun t => decide (t.id = ch.challengerTeamId)) = some tw →
        st.teams.find? (fun t => decide (t.id = ch.challengedTeamId)) = some tl →
        tl.league = tw.league →
        (st.teams.map Team.id).Nodup →
        tw.position ≤ 99999 →
        DensePerm st.teams lg →
        DensePerm (validateScore st challengeId true).teams lg) := by
  constructor
  · intro newId name creatorId tlg hdense
    exact createTeam_preserves_dense st newId name creatorId tlg lg hdense
  · intro challengeId ch sc tw tl hch hsc hw hl hlg hids hbound hdense
    have hcases := validateScore_true_teams_cases st challengeId ch sc tw tl
      hch hsc hw hl hbound
    by_cases hcase : computeWinnerId ch sc = ch.challengerTeamId
        ∧ tl.position < tw.position
    · rw [hcases.1 hcase]
      exact specRankingUpdate_preserves_dense st.teams lg tw.league
        ch.challengerTeamId tl.position tw.position tw tl
        (List.mem_of_find?_eq_some hw) (by simpa using List.find?_some hw) rfl rfl
        (List.mem_of_find?_eq_some hl) hlg rfl hcase.2 hids hdense
    · rw [hcases.2 (Decidable.not_and_iff_or_not.mp hcase)]
      exact hdense

/-- Witness for C2: density of the three-team mens ladder survives both a
`createTeam` and a validated bottom-beats-top result. -/
theorem positions_remain_dense_witness :
    DensePerm (createTeam stateSubmitted "d" "D" "ud" League.mens).1.teams League.mens
    ∧ DensePerm (validateScore stateSubmitted "m" true).teams League.mens := by
  have hdense : DensePerm stateSubmitted.teams League.mens := by
    constructor
    · decide
    · intro p
      show p ∈ [(1 : Int), 2, 3] ↔ 1 ≤ p ∧ p ≤ (([1, 2, 3] : List Int).length : Int)
      simp only [List.mem_cons, List.not_mem_nil, or_false, List.length_cons,
        List.length_nil]
      constructor
      · rintro (rfl | rfl | rfl) <;> simp
      · intro hp
        push_cast at hp
        omega
  exact ⟨(positions_remain_dense stateSubmitted League.mens).1 "d" "D" "ud"
      League.mens hdense,
    (positions_remain_dense stateSubmitted League.mens).2 "m" challengeSubmitted
      { challengerSets := [some 6, some 6], challengedSets := [some 4, some 3] }
      teamC teamA rfl rfl rfl rfl rfl (by decide) (by decide) hdense⟩

end FRPadel
